import Mathlib

/-!
Shallow embedding of the `Ref` binding from the Aurelia runtime
(`src/packages/runtime/src/binding/ref.ts`).

The binding is a small state machine over the fields `$state` (a lifecycle
bitmask) and `$scope`; its methods `$bind` / `$unbind` call out to the shared
source expression (`evaluate` / `assign` and the optional `bind` / `unbind`
hooks).  We embed the methods as pure functions threading an explicit external
world `W` (the state the expression reads and writes) and an explicit binding
value, and returning an `Outcome`: the new binding, the new world, the error if
the call threw, and the successive values assigned to `$state` during the call.
-/

namespace Aurelia

/-- Binding flags: an opaque bit-set, just propagated by the Ref binding. -/
abbrev Flags := Nat

/-- A scope object, identified by reference; `this.$scope === scope` in the
source is reference equality, which we model as equality of identities. -/
abbrev Scope := Nat

/-- An object identity (used for the binding's `target`). -/
abbrev Obj := Nat

/-- A service locator identity (opaque to the Ref binding). -/
abbrev Locator := Nat

/-- A thrown JS error, identified opaquely. -/
abbrev Err := Nat

/-- Opaque argument type (`StrictAny` in the source). -/
abbrev StrictAny := Nat

/-- A JS value held at the expression's target location; `null` is `none`. -/
abbrev Val := Option Obj

namespace LifecycleState

/-- Modelled from the spec: the `LifecycleState` bitmask enum
(`none=0, isBinding=1, isBound=2, isUnbinding=4`); the enum lives in
`lifecycle-state.ts`, which is not part of this excerpt. -/
def isBinding : Nat := 1

/-- Modelled from the spec: the `isBound` bit of the `LifecycleState` enum. -/
def isBound : Nat := 2

/-- Modelled from the spec: the `isUnbinding` bit of the `LifecycleState` enum. -/
def isUnbinding : Nat := 4

end LifecycleState

/-- Modelled from the spec: the expression contract (`IsBindingBehavior` from
the runtime's ast module, which is not part of this excerpt).  An expression
supports `evaluate(flags, scope, locator)` and
`assign(flags, scope, locator, value)`, and optionally `bind` / `unbind` hooks
(`hasBind` / `hasUnbind` are the source's hook-presence tests).  `W` is the
external mutable state the expression reads and writes; mutating operations
return the new world together with the thrown error, if any (`evaluate` is the
contract's read, so it leaves the world unchanged).  The scope parameter is the
raw `$scope` field value, hence an `Option`.  In the source the hooks also
receive the binding itself (for observer wiring); no Ref claim depends on that
argument, so it is omitted here. -/
structure IsBindingBehavior (W : Type) where
  evaluate : Flags → Option Scope → Locator → W → Except Err Val
  assign : Flags → Option Scope → Locator → Val → W → W × Option Err
  hasBind : Bool
  bindHook : Flags → Option Scope → W → W × Option Err
  hasUnbind : Bool
  unbindHook : Flags → Option Scope → W → W × Option Err

/-- The `Ref` binding's instance state: `sourceExpression`, `target` and
`locator` from the constructor, plus the mutable `$state` bitmask and `$scope`
(initially undefined, nulled on unbind: both modelled as `none`). -/
structure Ref (W : Type) where
  sourceExpression : IsBindingBehavior W
  target : Obj
  locator : Locator
  state : Nat
  scope : Option Scope

/-- The constructor `new Ref(sourceExpression, target, locator)`:
`$state = LifecycleState.none` (i.e. `0`), `$scope` undefined. -/
def Ref.construct {W : Type} (sourceExpression : IsBindingBehavior W)
    (target : Obj) (locator : Locator) : Ref W :=
  ⟨sourceExpression, target, locator, 0, none⟩

/-- Result of one method call on a `Ref` binding: the binding after the call,
the world after the call, `err` (`none` when the call returned normally; on a
throw, `ref` and `world` keep the mutations made before the throw — JS performs
no rollback), and `trace`: the successive values assigned to the `$state`
field during the call, in program order. -/
structure Outcome (W : Type) where
  ref : Ref W
  world : W
  err : Option Err
  trace : List Nat

/-- The JS statement `s &= ~m` (clear the bits of mask `m` in `s`): since the
bits of `s &&& m` are exactly the mask bits present in `s`, XOR-ing them away
is bitwise AND with the complement of `m`. -/
def clearBits (s m : Nat) : Nat := s ^^^ (s &&& m)

/-- The binding as it stands while `$unbind`'s expression work runs:
after `this.$state |= LifecycleState.isUnbinding` (ref.ts line 55). -/
def Ref.duringUnbind {W : Type} (b : Ref W) : Ref W :=
  { b with state := b.state ||| LifecycleState.isUnbinding }

/-- The expression work of `$unbind` (ref.ts lines 57–64), at scope `sc`:
evaluate the source expression; if the result is (strictly) the binding's
`target`, assign `null`; then run the expression's `unbind` hook if present.
A thrown error stops the sequence and propagates. -/
def unbindExprWork {W : Type} (e : IsBindingBehavior W) (flags : Flags)
    (sc : Option Scope) (loc : Locator) (tgt : Obj) (w : W) : W × Option Err :=
  match e.evaluate flags sc loc w with
  | .error er => (w, some er)
  | .ok v =>
    match (if v = some tgt then e.assign flags sc loc none w else (w, none)) with
    | (w1, some er) => (w1, some er)
    | (w1, none) =>
      if e.hasUnbind then e.unbindHook flags sc w1 else (w1, none)

/-- `$unbind(flags)` (ref.ts lines 50–70): no-op when not bound; otherwise set
`isUnbinding`, do the guarded expression teardown at the bound scope, null out
`$scope`, and clear `isBound` and `isUnbinding` together. -/
def Ref.unbind {W : Type} (b : Ref W) (flags : Flags) (w : W) : Outcome W :=
  if b.state &&& LifecycleState.isBound = 0 then ⟨b, w, none, []⟩
  else
    let b1 := b.duringUnbind
    match unbindExprWork b1.sourceExpression flags b1.scope b1.locator b1.target w with
    | (w1, some er) => ⟨b1, w1, some er, [b1.state]⟩
    | (w1, none) =>
      let b2 : Ref W :=
        { b1 with
          scope := none
          state := clearBits b1.state
            (LifecycleState.isBound ||| LifecycleState.isUnbinding) }
      ⟨b2, w1, none, [b1.state, b2.state]⟩

/-- The binding as it stands while `$bind`'s expression work runs: after
`this.$state |= LifecycleState.isBinding; this.$scope = scope`
(ref.ts lines 34–36). -/
def Ref.duringBind {W : Type} (b : Ref W) (scope : Scope) : Ref W :=
  { b with state := b.state ||| LifecycleState.isBinding, scope := some scope }

/-- The expression work of `$bind` (ref.ts lines 39–43), at scope `scope`: run
the expression's `bind` hook if present, then assign the binding's `target` as
the expression's value.  A thrown error stops the sequence and propagates. -/
def bindExprWork {W : Type} (e : IsBindingBehavior W) (flags : Flags)
    (scope : Scope) (loc : Locator) (tgt : Obj) (w : W) : W × Option Err :=
  match (if e.hasBind then e.bindHook flags (some scope) w else (w, none)) with
  | (w1, some er) => (w1, some er)
  | (w1, none) => e.assign flags (some scope) loc (some tgt) w1

/-- The body of `$bind` past the already-bound check (ref.ts lines 33–47):
set `isBinding`, store the scope, do the expression work, then set `isBound`
and clear `isBinding` (two consecutive `$state` assignments). -/
def Ref.bindCore {W : Type} (b : Ref W) (flags : Flags) (scope : Scope)
    (w : W) : Outcome W :=
  let b2 := b.duringBind scope
  match bindExprWork b2.sourceExpression flags scope b2.locator b2.target w with
  | (w1, some er) => ⟨b2, w1, some er, [b2.state]⟩
  | (w1, none) =>
    let s2 := b2.state ||| LifecycleState.isBound
    let b3 : Ref W := { b2 with state := clearBits s2 LifecycleState.isBinding }
    ⟨b3, w1, none, [b2.state, s2, b3.state]⟩

/-- `$bind(flags, scope)` (ref.ts lines 25–48): if already bound, return when
the scope is identical, else `$unbind` first (an error thrown by the inner
unbind propagates and stops the call); then run the core bind body. -/
def Ref.bind {W : Type} (b : Ref W) (flags : Flags) (scope : Scope)
    (w : W) : Outcome W :=
  if b.state &&& LifecycleState.isBound ≠ 0 then
    if b.scope = some scope then ⟨b, w, none, []⟩
    else
      match b.unbind flags w with
      | ⟨b1, w1, some er, tr⟩ => ⟨b1, w1, some er, tr⟩
      | ⟨b1, w1, none, tr⟩ =>
        let o := b1.bindCore flags scope w1
        ⟨o.ref, o.world, o.err, tr ++ o.trace⟩
  else b.bindCore flags scope w

/-- `observeProperty(obj, propertyName)` (ref.ts line 72): the body is empty
in the source, so the call changes nothing and assigns nothing. -/
def Ref.observeProperty {W : Type} (b : Ref W) (obj propertyName : StrictAny)
    (w : W) : Outcome W :=
  ⟨b, w, none, []⟩

/-- `handleChange(newValue, previousValue, flags)` (ref.ts line 73): the body
is empty in the source, so the call changes nothing and assigns nothing. -/
def Ref.handleChange {W : Type} (b : Ref W) (newValue previousValue : StrictAny)
    (flags : Flags) (w : W) : Outcome W :=
  ⟨b, w, none, []⟩

/-- The sequence `$unbind(flags); $bind(flags, scope)`, stopping (as a thrown
error would) if the unbind throws. -/
def seqUnbindBind {W : Type} (b : Ref W) (flags : Flags) (scope : Scope)
    (w : W) : Outcome W :=
  let o := b.unbind flags w
  match o.err with
  | some _ => o
  | none => o.ref.bind flags scope o.world

/-- A concrete world for exercising the binding: a single mutable location
(the expression's target location) plus a count of `assign` calls made so far,
so that "the binding ran `assign`" is observable. -/
structure CellWorld where
  value : Val
  assigns : Nat
deriving DecidableEq, Repr

/-- A concrete assignable expression over `CellWorld` (the shape the spec's
ref scenarios use): `evaluate` reads the location, `assign` writes it (and
bumps the call counter); no `bind` / `unbind` hooks. -/
def cellExpr : IsBindingBehavior CellWorld where
  evaluate := fun _ _ _ w => .ok w.value
  assign := fun _ _ _ v w => (⟨v, w.assigns + 1⟩, none)
  hasBind := false
  bindHook := fun _ _ w => (w, none)
  hasUnbind := false
  unbindHook := fun _ _ w => (w, none)

/-- A concrete expression whose `assign` always throws (error `7`), for the
failure-propagation claims. -/
def throwingExpr : IsBindingBehavior CellWorld where
  evaluate := fun _ _ _ w => .ok w.value
  assign := fun _ _ _ _ w => (w, some 7)
  hasBind := false
  bindHook := fun _ _ w => (w, none)
  hasUnbind := false
  unbindHook := fun _ _ w => (w, none)

/-- Instrumentation of an arbitrary expression: the same behavior over the
world `W × Nat`, where the second component counts how many times `assign`
has been called (also when the call throws), so that "the binding ran
`assign`" is observable for any expression. -/
def withAssignCount {W : Type} (e : IsBindingBehavior W) :
    IsBindingBehavior (W × Nat) where
  evaluate := fun f sc l w => e.evaluate f sc l w.1
  assign := fun f sc l v w =>
    match e.assign f sc l v w.1 with
    | (w1, er) => ((w1, w.2 + 1), er)
  hasBind := e.hasBind
  bindHook := fun f sc w =>
    match e.bindHook f sc w.1 with
    | (w1, er) => ((w1, w.2), er)
  hasUnbind := e.hasUnbind
  unbindHook := fun f sc w =>
    match e.unbindHook f sc w.1 with
    | (w1, er) => ((w1, w.2), er)

/-- Binding states reachable from construction by completed (normally
returning) `$bind` / `$unbind` calls against arbitrary worlds. -/
inductive Reachable {W : Type} : Ref W → Prop where
  | construct (e : IsBindingBehavior W) (t : Obj) (l : Locator) :
      Reachable (Ref.construct e t l)
  | bindStep (b : Ref W) (flags : Flags) (scope : Scope) (w : W) :
      Reachable b → (b.bind flags scope w).err = none →
      Reachable (b.bind flags scope w).ref
  | unbindStep (b : Ref W) (flags : Flags) (w : W) :
      Reachable b → (b.unbind flags w).err = none →
      Reachable (b.unbind flags w).ref

/-! Helper lemmas about the `LifecycleState` bitmask arithmetic. -/

lemma testBit_clearBits (s m i : Nat) :
    (clearBits s m).testBit i = (s.testBit i && !(m.testBit i)) := by
  unfold clearBits
  rw [Nat.testBit_xor, Nat.testBit_land]
  cases hs : s.testBit i <;> cases hm : m.testBit i <;> rfl

lemma and_isBound_ne_zero (s : Nat) :
    s &&& LifecycleState.isBound ≠ 0 ↔ s.testBit 1 = true := by
  have h := Nat.and_two_pow s 1
  norm_num at h
  unfold LifecycleState.isBound
  rw [h]
  cases hb : s.testBit 1 <;> simp

lemma and_isBound_eq_zero (s : Nat) :
    s &&& LifecycleState.isBound = 0 ↔ s.testBit 1 = false := by
  rw [← Bool.not_eq_true, ← and_isBound_ne_zero s]
  exact not_not.symm

lemma testBit_one_unbound (s : Nat) :
    (clearBits s (LifecycleState.isBound ||| LifecycleState.isUnbinding)).testBit 1
      = false := by
  rw [testBit_clearBits]
  rw [(by decide :
    Nat.testBit (LifecycleState.isBound ||| LifecycleState.isUnbinding) 1 = true)]
  simp

lemma testBit_two_unbound (s : Nat) :
    (clearBits s (LifecycleState.isBound ||| LifecycleState.isUnbinding)).testBit 2
      = false := by
  rw [testBit_clearBits]
  rw [(by decide :
    Nat.testBit (LifecycleState.isBound ||| LifecycleState.isUnbinding) 2 = true)]
  simp

lemma testBit_one_bound (s : Nat) :
    (clearBits ((s ||| LifecycleState.isBinding) ||| LifecycleState.isBound)
      LifecycleState.isBinding).testBit 1 = true := by
  rw [testBit_clearBits, Nat.testBit_lor]
  rw [(by decide : Nat.testBit LifecycleState.isBound 1 = true),
    (by decide : Nat.testBit LifecycleState.isBinding 1 = false)]
  simp

lemma testBit_zero_after_bind (s : Nat) :
    (clearBits ((s ||| LifecycleState.isBinding) ||| LifecycleState.isBound)
      LifecycleState.isBinding).testBit 0 = false := by
  rw [testBit_clearBits]
  rw [(by decide : Nat.testBit LifecycleState.isBinding 0 = true)]
  simp

lemma testBit_zero_during_bind (s : Nat) :
    (s ||| LifecycleState.isBinding).testBit 0 = true := by
  rw [Nat.testBit_lor]
  rw [(by decide : Nat.testBit LifecycleState.isBinding 0 = true)]
  simp

/-! Shape lemmas: how one `$unbind` / `$bind` call looks on each control path. -/

lemma unbind_ok_shape {W : Type} (b : Ref W) (flags : Flags) (w : W)
    (hb : b.state &&& LifecycleState.isBound ≠ 0)
    (hok : (b.unbind flags w).err = none) :
    b.unbind flags w =
      ⟨{ b with scope := none,
                state := clearBits (b.state ||| LifecycleState.isUnbinding)
                  (LifecycleState.isBound ||| LifecycleState.isUnbinding) },
       (unbindExprWork b.sourceExpression flags b.scope b.locator b.target w).1,
       none,
       [b.state ||| LifecycleState.isUnbinding,
        clearBits (b.state ||| LifecycleState.isUnbinding)
          (LifecycleState.isBound ||| LifecycleState.isUnbinding)]⟩ := by
  rcases h : unbindExprWork b.sourceExpression flags b.scope b.locator b.target w
    with ⟨w1, e1⟩
  cases e1 with
  | some er =>
    have hcontra : (b.unbind flags w).err = some er := by
      simp [Ref.unbind, Ref.duringUnbind, hb, h]
    rw [hcontra] at hok
    cases hok
  | none =>
    simp [Ref.unbind, Ref.duringUnbind, hb, h]

lemma unbind_err_shape {W : Type} (b : Ref W) (flags : Flags) (w : W) (w1 : W)
    (er : Err)
    (hb : b.state &&& LifecycleState.isBound ≠ 0)
    (h : unbindExprWork b.sourceExpression flags b.scope b.locator b.target w
      = (w1, some er)) :
    b.unbind flags w =
      ⟨b.duringUnbind, w1, some er, [b.state ||| LifecycleState.isUnbinding]⟩ := by
  simp [Ref.unbind, Ref.duringUnbind, hb, h]

lemma bindCore_ok_shape {W : Type} (b : Ref W) (flags : Flags) (scope : Scope)
    (w : W) (hok : (b.bindCore flags scope w).err = none) :
    ∃ w1, bindExprWork b.sourceExpression flags scope b.locator b.target w
        = (w1, none) ∧
      b.bindCore flags scope w =
        ⟨{ b with scope := some scope,
                  state := clearBits
                    ((b.state ||| LifecycleState.isBinding) |||
                      LifecycleState.isBound)
                    LifecycleState.isBinding },
          w1, none,
          [b.state ||| LifecycleState.isBinding,
           (b.state ||| LifecycleState.isBinding) ||| LifecycleState.isBound,
           clearBits
             ((b.state ||| LifecycleState.isBinding) ||| LifecycleState.isBound)
             LifecycleState.isBinding]⟩ := by
  rcases h : bindExprWork b.sourceExpression flags scope b.locator b.target w
    with ⟨w1, e1⟩
  cases e1 with
  | some er =>
    have hcontra : (b.bindCore flags scope w).err = some er := by
      simp [Ref.bindCore, Ref.duringBind, h]
    rw [hcontra] at hok
    cases hok
  | none =>
    exact ⟨w1, rfl, by simp [Ref.bindCore, Ref.duringBind, h]⟩

lemma bindCore_err_shape {W : Type} (b : Ref W) (flags : Flags) (scope : Scope)
    (w : W) (w1 : W) (er : Err)
    (h : bindExprWork b.sourceExpression flags scope b.locator b.target w
      = (w1, some er)) :
    b.bindCore flags scope w =
      ⟨b.duringBind scope, w1, some er, [b.state ||| LifecycleState.isBinding]⟩ := by
  simp [Ref.bindCore, Ref.duringBind, h]

lemma bind_not_bound_eq_core {W : Type} (b : Ref W) (flags : Flags)
    (scope : Scope) (w : W) (h : b.state &&& LifecycleState.isBound = 0) :
    b.bind flags scope w = b.bindCore flags scope w := by
  simp [Ref.bind, h]

/-- C2: binding an already-bound `Ref` binding again with the identical scope
object is a no-op: the binding (so `$state` and `$scope`), the world (so the
expression's assigned value), the absence of a throw and the absence of any
`$state` assignment are all unchanged — in particular the expression's
`assign` (the initial push) is not re-run. -/
theorem ref_bind_same_scope_noop {W : Type} (b : Ref W) (flags : Flags)
    (scope : Scope) (w : W)
    (hb : b.state &&& LifecycleState.isBound ≠ 0)
    (hs : b.scope = some scope) :
    b.bind flags scope w = ⟨b, w, none, []⟩ := by
  simp [Ref.bind, hb, hs]

/-- Witness for C2 at a concrete bound binding. -/
theorem ref_bind_same_scope_noop_witness :
    ((2 : Nat) &&& LifecycleState.isBound ≠ 0) ∧
    ((Ref.mk cellExpr 1 0 2 (some 5)).scope = some 5) ∧
    (Ref.mk cellExpr 1 0 2 (some 5)).bind 0 5 ⟨some 2, 2⟩
      = ⟨Ref.mk cellExpr 1 0 2 (some 5), ⟨some 2, 2⟩, none, []⟩ :=
  ⟨by decide, rfl,
    ref_bind_same_scope_noop (Ref.mk cellExpr 1 0 2 (some 5)) 0 5 ⟨some 2, 2⟩
      (by decide) rfl⟩

/-- C4: `$unbind` on a binding that is not bound (freshly constructed, or
after a completed `$unbind` cleared `isBound`) returns without a throw,
changes neither `$state` nor `$scope` nor the world (so no expression method
has any effect), and assigns nothing to `$state`. -/
theorem ref_unbind_not_bound_noop {W : Type} (b : Ref W) (flags : Flags)
    (w : W) (h : b.state &&& LifecycleState.isBound = 0) :
    b.unbind flags w = ⟨b, w, none, []⟩ := by
  simp [Ref.unbind, h]

/-- Witness for C4 at a freshly constructed binding. -/
theorem ref_unbind_not_bound_noop_witness :
    ((Ref.construct cellExpr 1 0).state &&& LifecycleState.isBound = 0) ∧
    (Ref.construct cellExpr 1 0).unbind 0 ⟨some 5, 3⟩
      = ⟨Ref.construct cellExpr 1 0, ⟨some 5, 3⟩, none, []⟩ :=
  ⟨by decide,
    ref_unbind_not_bound_noop (Ref.construct cellExpr 1 0) 0 ⟨some 5, 3⟩
      (by decide)⟩

/-- C9: `observeProperty` and `handleChange` are pure no-ops on a `Ref`
binding, in every state and for all arguments: the binding (hence `$state`,
`$scope`, `sourceExpression`, `target` and `locator`) and the world are
unchanged, no error is thrown and no `$state` assignment happens — the
bodies are empty in the source, so no expression method can be invoked. -/
theorem ref_observe_handleChange_noop {W : Type} (b : Ref W)
    (obj propertyName newValue previousValue : StrictAny) (flags : Flags)
    (w : W) :
    b.observeProperty obj propertyName w = ⟨b, w, none, []⟩ ∧
    b.handleChange newValue previousValue flags w = ⟨b, w, none, []⟩ :=
  ⟨rfl, rfl⟩

lemma unbind_world {W : Type} (b : Ref W) (flags : Flags) (w : W)
    (hb : b.state &&& LifecycleState.isBound ≠ 0) :
    (b.unbind flags w).world
      = (unbindExprWork b.sourceExpression flags b.scope b.locator b.target w).1 := by
  rcases h : unbindExprWork b.sourceExpression flags b.scope b.locator b.target w
    with ⟨w1, e1⟩
  cases e1 <;> simp [Ref.unbind, Ref.duringUnbind, hb, h]

lemma withAssignCount_count {W : Type} (e : IsBindingBehavior W) (flags : Flags)
    (sc : Option Scope) (l : Locator) (t : Obj) (w : W) (k : Nat) (v : Val)
    (hev : e.evaluate flags sc l w = .ok v) :
    ((unbindExprWork (withAssignCount e) flags sc l t (w, k)).1).2
      = if v = some t then k + 1 else k := by
  unfold unbindExprWork
  simp only [withAssignCount, hev]
  by_cases hv : v = some t
  · rcases ha : e.assign flags sc l none w with ⟨w1, er1⟩
    cases er1 with
    | some er => simp [hv, ha]
    | none =>
      by_cases hu : e.hasUnbind
      · rcases hh : e.unbindHook flags sc w1 with ⟨w2, er2⟩
        cases er2 <;> simp [hv, ha, hu, hh]
      · simp [hv, ha, hu]
  · by_cases hu : e.hasUnbind
    · rcases hh : e.unbindHook flags sc w with ⟨w2, er2⟩
      cases er2 <;> simp [hv, hu, hh]
    · simp [hv, hu]

lemma withAssignCount_untouched {W : Type} (e : IsBindingBehavior W)
    (flags : Flags) (sc : Option Scope) (l : Locator) (t : Obj) (w : W)
    (k : Nat) (v : Val)
    (hev : e.evaluate flags sc l w = .ok v) (hv : v ≠ some t) :
    (unbindExprWork (withAssignCount e) flags sc l t (w, k)).1
      = ((if e.hasUnbind then (e.unbindHook flags sc w).1 else w), k) := by
  unfold unbindExprWork
  simp only [withAssignCount, hev]
  by_cases hu : e.hasUnbind
  · rcases hh : e.unbindHook flags sc w with ⟨w2, er2⟩
    cases er2 <;> simp [hv, hu, hh]
  · simp [hv, hu]

/-- C1: on a `Ref` binding bound to scope `sc`, `$unbind` calls the source
expression's `assign` with `null` (observed by the instrumented call counter)
exactly when the expression currently evaluates against `sc` to precisely the
binding's `target`; when it evaluates to anything else the expression's
location is left untouched (the world is changed only by the `unbind` hook,
if one exists) — so a target installed by a later binding on the same
expression survives this binding's unbind. -/
theorem ref_unbind_clears_iff_evaluates_to_target {W : Type}
    (e : IsBindingBehavior W) (t : Obj) (l : Locator) (st : Nat) (sc : Scope)
    (flags : Flags) (w : W) (k : Nat) (v : Val)
    (hb : st &&& LifecycleState.isBound ≠ 0)
    (hev : e.evaluate flags (some sc) l w = .ok v) :
    ((((Ref.mk (withAssignCount e) t l st (some sc)).unbind flags (w, k)).world.2
        = k + 1) ↔ v = some t) ∧
    (v ≠ some t →
      (((Ref.mk (withAssignCount e) t l st (some sc)).unbind flags (w, k)).world.1
        = if e.hasUnbind then (e.unbindHook flags (some sc) w).1 else w)) := by
  have hw := unbind_world (Ref.mk (withAssignCount e) t l st (some sc)) flags
    (w, k) hb
  constructor
  · rw [hw]
    have hc := withAssignCount_count e flags (some sc) l t w k v hev
    rw [hc]
    by_cases hv : v = some t <;> simp [hv]
  · intro hv
    rw [hw]
    have hu := withAssignCount_untouched e flags (some sc) l t w k v hev hv
    rw [hu]

/-- Witness for C1: the guard scenario — the binding's target is `1`, but a
later binding has already installed `2` at the location; unbinding runs no
`assign` (counter stays `0`) and the location keeps the value `2`. -/
theorem ref_unbind_clears_iff_evaluates_to_target_witness :
    ((2 : Nat) &&& LifecycleState.isBound ≠ 0) ∧
    (cellExpr.evaluate 0 (some 5) 0 ⟨some 2, 0⟩ = .ok (some 2)) ∧
    (((((Ref.mk (withAssignCount cellExpr) 1 0 2 (some 5)).unbind 0
          (⟨some 2, 0⟩, 0)).world.2 = 0 + 1) ↔ (some 2 : Val) = some 1) ∧
      (((Ref.mk (withAssignCount cellExpr) 1 0 2 (some 5)).unbind 0
          (⟨some 2, 0⟩, 0)).world.1
        = if cellExpr.hasUnbind then (cellExpr.unbindHook 0 (some 5) ⟨some 2, 0⟩).1
          else ⟨some 2, 0⟩)) := by
  have h := ref_unbind_clears_iff_evaluates_to_target cellExpr 1 0 2 5 0
    ⟨some 2, 0⟩ 0 (some 2) (by decide) rfl
  exact ⟨by decide, rfl, h.1, h.2 (by decide)⟩

/-- C3: on a binding bound to a scope other than `scope`, `$bind(flags,
scope)` produces the same resulting binding (`$state` and `$scope`), the same
world (expression-assigned value) and the same thrown-error behavior as the
sequence `$unbind(flags); $bind(flags, scope)`. -/
theorem ref_rebind_equals_unbind_then_bind {W : Type} (b : Ref W)
    (flags : Flags) (scope : Scope) (w : W)
    (hb : b.state &&& LifecycleState.isBound ≠ 0)
    (hs : b.scope ≠ some scope) :
    (b.bind flags scope w).ref = (seqUnbindBind b flags scope w).ref ∧
    (b.bind flags scope w).world = (seqUnbindBind b flags scope w).world ∧
    (b.bind flags scope w).err = (seqUnbindBind b flags scope w).err := by
  rcases h : b.unbind flags w with ⟨b1, w1, e1, tr⟩
  cases e1 with
  | some er =>
    have h1 : b.bind flags scope w = ⟨b1, w1, some er, tr⟩ := by
      simp [Ref.bind, hb, hs, h]
    have h2 : seqUnbindBind b flags scope w = ⟨b1, w1, some er, tr⟩ := by
      simp [seqUnbindBind, h]
    rw [h1, h2]
    exact ⟨rfl, rfl, rfl⟩
  | none =>
    have hshape := unbind_ok_shape b flags w hb (by rw [h])
    rw [h] at hshape
    simp only [Outcome.mk.injEq] at hshape
    obtain ⟨hb1, hw1, -, htr⟩ := hshape
    have hnb : b1.state &&& LifecycleState.isBound = 0 := by
      rw [hb1]
      exact (and_isBound_eq_zero _).mpr (testBit_one_unbound _)
    have h1 : b.bind flags scope w =
        ⟨(b1.bindCore flags scope w1).ref, (b1.bindCore flags scope w1).world,
          (b1.bindCore flags scope w1).err,
          tr ++ (b1.bindCore flags scope w1).trace⟩ := by
      simp [Ref.bind, hb, hs, h]
    have h2 : seqUnbindBind b flags scope w = b1.bind flags scope w1 := by
      simp [seqUnbindBind, h]
    rw [h1, h2, bind_not_bound_eq_core b1 flags scope w1 hnb]
    exact ⟨rfl, rfl, rfl⟩

/-- Witness for C3 at a concrete bound binding re-bound to a new scope. -/
theorem ref_rebind_equals_unbind_then_bind_witness :
    ((2 : Nat) &&& LifecycleState.isBound ≠ 0) ∧
    ((some 5 : Option Scope) ≠ some 9) ∧
    (((Ref.mk cellExpr 1 0 2 (some 5)).bind 0 9 ⟨some 1, 1⟩).ref
        = (seqUnbindBind (Ref.mk cellExpr 1 0 2 (some 5)) 0 9 ⟨some 1, 1⟩).ref ∧
      ((Ref.mk cellExpr 1 0 2 (some 5)).bind 0 9 ⟨some 1, 1⟩).world
        = (seqUnbindBind (Ref.mk cellExpr 1 0 2 (some 5)) 0 9 ⟨some 1, 1⟩).world ∧
      ((Ref.mk cellExpr 1 0 2 (some 5)).bind 0 9 ⟨some 1, 1⟩).err
        = (seqUnbindBind (Ref.mk cellExpr 1 0 2 (some 5)) 0 9 ⟨some 1, 1⟩).err) :=
  ⟨by decide, by decide,
    ref_rebind_equals_unbind_then_bind (Ref.mk cellExpr 1 0 2 (some 5)) 0 9
      ⟨some 1, 1⟩ (by decide) (by decide)⟩

/-- C10: on a bound `Ref` binding, a normally returning `$unbind` — whether or
not the guarded null-assignment fired, and whether or not the expression has
an `unbind` hook — always nulls `$scope` and clears both the `isBound` and
`isUnbinding` bits; and all the expression work (guard evaluation, optional
null-assignment, optional unbind hook) runs against the still-held bound
scope `b.scope`. -/
theorem ref_unbind_always_clears {W : Type} (b : Ref W) (flags : Flags)
    (w : W)
    (hb : b.state &&& LifecycleState.isBound ≠ 0)
    (hok : (b.unbind flags w).err = none) :
    (b.unbind flags w).ref.scope = none ∧
    (b.unbind flags w).ref.state.testBit 1 = false ∧
    (b.unbind flags w).ref.state.testBit 2 = false ∧
    (b.unbind flags w).world
      = (unbindExprWork b.sourceExpression flags b.scope b.locator b.target w).1 := by
  rw [unbind_ok_shape b flags w hb hok]
  exact ⟨rfl, testBit_one_unbound _, testBit_two_unbound _, rfl⟩

/-- Witness for C10 at a concrete bound binding whose guard fires. -/
theorem ref_unbind_always_clears_witness :
    ((2 : Nat) &&& LifecycleState.isBound ≠ 0) ∧
    (((Ref.mk cellExpr 1 0 2 (some 5)).unbind 0 ⟨some 1, 0⟩).err = none) ∧
    (((Ref.mk cellExpr 1 0 2 (some 5)).unbind 0 ⟨some 1, 0⟩).ref.scope = none ∧
      ((Ref.mk cellExpr 1 0 2 (some 5)).unbind 0 ⟨some 1, 0⟩).ref.state.testBit 1
        = false ∧
      ((Ref.mk cellExpr 1 0 2 (some 5)).unbind 0 ⟨some 1, 0⟩).ref.state.testBit 2
        = false ∧
      ((Ref.mk cellExpr 1 0 2 (some 5)).unbind 0 ⟨some 1, 0⟩).world
        = (unbindExprWork cellExpr 0 (some 5) 0 1 ⟨some 1, 0⟩).1) :=
  ⟨by decide, rfl,
    ref_unbind_always_clears (Ref.mk cellExpr 1 0 2 (some 5)) 0 ⟨some 1, 0⟩
      (by decide) rfl⟩

lemma testBit_one_setBound (s : Nat) :
    (s ||| LifecycleState.isBound).testBit 1 = true := by
  rw [Nat.testBit_lor]
  rw [(by decide : Nat.testBit LifecycleState.isBound 1 = true)]
  simp

lemma testBit_one_during_bind (s : Nat) (h : s.testBit 1 = false) :
    (s ||| LifecycleState.isBinding).testBit 1 = false := by
  rw [Nat.testBit_lor, h]
  rw [(by decide : Nat.testBit LifecycleState.isBinding 1 = false)]
  rfl

/-- C5: on every binding reachable from construction by completed `$bind` and
`$unbind` calls (including the freshly constructed binding), `$scope` is
non-null exactly when the `isBound` bit of `$state` is set. -/
theorem ref_scope_iff_isBound {W : Type} (b : Ref W) (h : Reachable b) :
    b.scope ≠ none ↔ b.state &&& LifecycleState.isBound ≠ 0 := by
  induction h with
  | construct e t l =>
    simp [Ref.construct, LifecycleState.isBound]
  | bindStep b' flags' scope' w' hR hok IH =>
    by_cases hb : b'.state &&& LifecycleState.isBound = 0
    · rw [bind_not_bound_eq_core b' flags' scope' w' hb] at hok ⊢
      obtain ⟨w2, hwk, hcore⟩ := bindCore_ok_shape b' flags' scope' w' hok
      rw [hcore]
      constructor
      · intro _
        exact (and_isBound_ne_zero _).mpr (testBit_one_bound _)
      · intro _
        simp
    · have hb' : b'.state &&& LifecycleState.isBound ≠ 0 := hb
      by_cases hs : b'.scope = some scope'
      · have hno : b'.bind flags' scope' w' = ⟨b', w', none, []⟩ := by
          simp [Ref.bind, hb', hs]
        rw [hno]
        exact IH
      · rcases hu : b'.unbind flags' w' with ⟨b1, w1, e1, tr⟩
        cases e1 with
        | some er =>
          have hcon : b'.bind flags' scope' w' = ⟨b1, w1, some er, tr⟩ := by
            simp [Ref.bind, hb', hs, hu]
          rw [hcon] at hok
          cases hok
        | none =>
          have hbind : b'.bind flags' scope' w' =
              ⟨(b1.bindCore flags' scope' w1).ref, (b1.bindCore flags' scope' w1).world,
                (b1.bindCore flags' scope' w1).err,
                tr ++ (b1.bindCore flags' scope' w1).trace⟩ := by
            simp [Ref.bind, hb', hs, hu]
          rw [hbind] at hok ⊢
          have hok' : (b1.bindCore flags' scope' w1).err = none := hok
          obtain ⟨w2, hwk, hcore⟩ := bindCore_ok_shape b1 flags' scope' w1 hok'
          show (b1.bindCore flags' scope' w1).ref.scope ≠ none ↔
            (b1.bindCore flags' scope' w1).ref.state &&& LifecycleState.isBound ≠ 0
          rw [hcore]
          constructor
          · intro _
            exact (and_isBound_ne_zero _).mpr (testBit_one_bound _)
          · intro _
            simp
  | unbindStep b' flags' w' hR hok IH =>
    by_cases hb : b'.state &&& LifecycleState.isBound = 0
    · have hno : b'.unbind flags' w' = ⟨b', w', none, []⟩ := by
        simp [Ref.unbind, hb]
      rw [hno]
      exact IH
    · rw [unbind_ok_shape b' flags' w' hb hok]
      have hz : clearBits (b'.state ||| LifecycleState.isUnbinding)
          (LifecycleState.isBound ||| LifecycleState.isUnbinding) &&&
          LifecycleState.isBound = 0 :=
        (and_isBound_eq_zero _).mpr (testBit_one_unbound _)
      simp [hz]

/-- Witness for C5 at a binding reached by an actual completed bind. -/
theorem ref_scope_iff_isBound_witness :
    Reachable (((Ref.construct cellExpr 1 0).bind 0 5 ⟨none, 0⟩).ref) ∧
    ((((Ref.construct cellExpr 1 0).bind 0 5 ⟨none, 0⟩).ref.scope ≠ none) ↔
      (((Ref.construct cellExpr 1 0).bind 0 5 ⟨none, 0⟩).ref.state &&&
        LifecycleState.isBound ≠ 0)) :=
  ⟨Reachable.bindStep (Ref.construct cellExpr 1 0) 0 5 ⟨none, 0⟩
      (Reachable.construct cellExpr 1 0) rfl,
    ref_scope_iff_isBound (((Ref.construct cellExpr 1 0).bind 0 5 ⟨none, 0⟩).ref)
      (Reachable.bindStep (Ref.construct cellExpr 1 0) 0 5 ⟨none, 0⟩
        (Reachable.construct cellExpr 1 0) rfl)⟩

/-- C6 as stated is false on the re-bind path: a `$bind` on a binding bound to
a different scope proceeds past the no-op check and completes normally, yet
the value `0` — with both `isBinding` and `isBound` clear — is assigned to
`$state` mid-call (by the inner `$unbind`'s final transition, before
`isBinding` is set). -/
theorem ref_bind_midcall_counterexample :
    ((Ref.mk cellExpr 1 0 2 (some 5)).state &&& LifecycleState.isBound ≠ 0) ∧
    ((Ref.mk cellExpr 1 0 2 (some 5)).scope ≠ some 9) ∧
    (((Ref.mk cellExpr 1 0 2 (some 5)).bind 0 9 ⟨some 1, 1⟩).err = none) ∧
    (0 ∈ ((Ref.mk cellExpr 1 0 2 (some 5)).bind 0 9 ⟨some 1, 1⟩).trace) ∧
    ((0 : Nat) &&& (LifecycleState.isBinding ||| LifecycleState.isBound) = 0) := by
  refine ⟨by decide, by decide, rfl, ?_, by decide⟩
  have htr : ((Ref.mk cellExpr 1 0 2 (some 5)).bind 0 9 ⟨some 1, 1⟩).trace
      = [6, 0, 1, 3, 2] := rfl
  rw [htr]
  simp

/-- C6 amended: within the core of a `$bind` call (after the no-op check and
any inner `$unbind`): `isBinding` is set on the state at which the
expression's bind hook and `assign` run, every `$state` value assigned from
that point to the end of the call has `isBinding` or `isBound` set, and on
normal completion `isBound` is set only while `isBinding` is still set
(middle trace entry), after which `isBinding` is cleared — so the final state
has `isBound` set and `isBinding` clear. -/
theorem ref_bindCore_state_monotonic {W : Type} (b : Ref W) (flags : Flags)
    (scope : Scope) (w : W) :
    (b.duringBind scope).state.testBit 0 = true ∧
    (b.bindCore flags scope w).trace.head? = some (b.duringBind scope).state ∧
    (∀ n ∈ (b.bindCore flags scope w).trace,
      n.testBit 0 = true ∨ n.testBit 1 = true) ∧
    ((b.bindCore flags scope w).err = none →
      (b.bindCore flags scope w).ref.state.testBit 1 = true ∧
      (b.bindCore flags scope w).ref.state.testBit 0 = false ∧
      (b.bindCore flags scope w).trace
        = [(b.duringBind scope).state,
           (b.duringBind scope).state ||| LifecycleState.isBound,
           (b.bindCore flags scope w).ref.state]) := by
  rcases hwk : bindExprWork b.sourceExpression flags scope b.locator b.target w
    with ⟨w1, e1⟩
  cases e1 with
  | some er =>
    rw [bindCore_err_shape b flags scope w w1 er hwk]
    refine ⟨testBit_zero_during_bind b.state, rfl, ?_, ?_⟩
    · intro n hn
      simp only [List.mem_singleton] at hn
      subst hn
      exact Or.inl (testBit_zero_during_bind b.state)
    · intro hcon
      cases hcon
  | none =>
    have hok : (b.bindCore flags scope w).err = none := by
      simp [Ref.bindCore, Ref.duringBind, hwk]
    obtain ⟨w2, hwk2, hcore⟩ := bindCore_ok_shape b flags scope w hok
    rw [hcore]
    refine ⟨testBit_zero_during_bind b.state, rfl, ?_, ?_⟩
    · intro n hn
      simp only [List.mem_cons, List.mem_singleton, List.not_mem_nil, or_false]
        at hn
      rcases hn with hn | hn | hn <;> subst hn
      · exact Or.inl (testBit_zero_during_bind b.state)
      · exact Or.inr (testBit_one_setBound _)
      · exact Or.inr (testBit_one_bound _)
    · intro _
      exact ⟨testBit_one_bound _, testBit_zero_after_bind _, rfl⟩

/-- Witness for C6's amended statement at a concrete fresh bind (the middle
trace entry `3` is checked against the bits-set property directly). -/
theorem ref_bindCore_state_monotonic_witness :
    ((Ref.construct cellExpr 1 0).duringBind 5).state.testBit 0 = true ∧
    ((Ref.construct cellExpr 1 0).bindCore 0 5 ⟨none, 0⟩).trace.head?
      = some ((Ref.construct cellExpr 1 0).duringBind 5).state ∧
    ((3 : Nat).testBit 0 = true ∨ (3 : Nat).testBit 1 = true) ∧
    (((Ref.construct cellExpr 1 0).bindCore 0 5 ⟨none, 0⟩).ref.state.testBit 1
        = true ∧
      ((Ref.construct cellExpr 1 0).bindCore 0 5 ⟨none, 0⟩).ref.state.testBit 0
        = false ∧
      ((Ref.construct cellExpr 1 0).bindCore 0 5 ⟨none, 0⟩).trace
        = [((Ref.construct cellExpr 1 0).duringBind 5).state,
           ((Ref.construct cellExpr 1 0).duringBind 5).state |||
             LifecycleState.isBound,
           ((Ref.construct cellExpr 1 0).bindCore 0 5 ⟨none, 0⟩).ref.state]) := by
  have h := ref_bindCore_state_monotonic (Ref.construct cellExpr 1 0) 0 5 ⟨none, 0⟩
  exact ⟨h.1, h.2.1, h.2.2.1 3 (by decide), h.2.2.2 rfl⟩

/-- C7 as stated is false for the no-op path: binding `B1` (target `1`) to
scope `5`, then binding `B2` (target `2`) on the same expression to the same
scope, then calling `B1.$bind` again with scope `5` completes normally, but
the expression then evaluates to `B2`'s target `2`, not to `B1`'s target. -/
theorem ref_bind_evaluates_to_target_counterexample :
    ((((Ref.construct cellExpr 1 0).bind 0 5 ⟨none, 0⟩).ref.bind 0 5
        (((Ref.construct cellExpr 2 0).bind 0 5
          (((Ref.construct cellExpr 1 0).bind 0 5 ⟨none, 0⟩).world)).world)).err
      = none) ∧
    ((((Ref.construct cellExpr 1 0).bind 0 5 ⟨none, 0⟩).ref.target) = 1) ∧
    (cellExpr.evaluate 0 (some 5) 0
        ((((Ref.construct cellExpr 1 0).bind 0 5 ⟨none, 0⟩).ref.bind 0 5
          (((Ref.construct cellExpr 2 0).bind 0 5
            (((Ref.construct cellExpr 1 0).bind 0 5 ⟨none, 0⟩).world)).world)).world)
      = .ok ((((Ref.construct cellExpr 1 0).bind 0 5 ⟨none, 0⟩).ref.bind 0 5
          (((Ref.construct cellExpr 2 0).bind 0 5
            (((Ref.construct cellExpr 1 0).bind 0 5 ⟨none, 0⟩).world)).world)).world.value)) ∧
    ((((Ref.construct cellExpr 1 0).bind 0 5 ⟨none, 0⟩).ref.bind 0 5
        (((Ref.construct cellExpr 2 0).bind 0 5
          (((Ref.construct cellExpr 1 0).bind 0 5 ⟨none, 0⟩).world)).world)).world.value
      = some 2) ∧
    ((some 2 : Val)
      ≠ some (((Ref.construct cellExpr 1 0).bind 0 5 ⟨none, 0⟩).ref.target)) := by
  refine ⟨rfl, rfl, rfl, rfl, by decide⟩

lemma bindExprWork_ok_assign {W : Type} (e : IsBindingBehavior W)
    (flags : Flags) (scope : Scope) (loc : Locator) (tgt : Obj) (w : W)
    (w1 : W) (h : bindExprWork e flags scope loc tgt w = (w1, none)) :
    ∃ wmid, e.assign flags (some scope) loc (some tgt) wmid = (w1, none) := by
  unfold bindExprWork at h
  rcases hh : (if e.hasBind then e.bindHook flags (some scope) w else (w, none))
    with ⟨wm, e1⟩
  rw [hh] at h
  cases e1 with
  | some er => cases h
  | none => exact ⟨wm, h⟩

/-- C7 amended: for a `$bind` that proceeds past the no-op check and completes
normally, and whose expression satisfies the get-after-set contract (what
`assign` just wrote is what `evaluate` reads back), evaluating the source
expression against the new scope afterwards yields exactly the binding's
`target` — the bind's final world is the one produced by assigning `target`.
The no-op path (already bound to the same scope) gives no such guarantee,
because a later binding on the same expression may have overwritten the
value. -/
theorem ref_bind_assigns_target {W : Type} (b : Ref W) (flags : Flags)
    (scope : Scope) (w : W)
    (hGS : ∀ f sc v w0 w1,
      b.sourceExpression.assign f sc b.locator v w0 = (w1, none) →
      b.sourceExpression.evaluate f sc b.locator w1 = .ok v)
    (hnn : ¬(b.state &&& LifecycleState.isBound ≠ 0 ∧ b.scope = some scope))
    (hok : (b.bind flags scope w).err = none) :
    b.sourceExpression.evaluate flags (some scope) b.locator
      (b.bind flags scope w).world = .ok (some b.target) := by
  by_cases hb : b.state &&& LifecycleState.isBound = 0
  · rw [bind_not_bound_eq_core b flags scope w hb] at hok ⊢
    obtain ⟨w1, hwk, hcore⟩ := bindCore_ok_shape b flags scope w hok
    obtain ⟨wmid, ha⟩ :=
      bindExprWork_ok_assign b.sourceExpression flags scope b.locator b.target
        w w1 hwk
    rw [hcore]
    exact hGS flags (some scope) (some b.target) wmid w1 ha
  · have hb' : b.state &&& LifecycleState.isBound ≠ 0 := hb
    have hs : b.scope ≠ some scope := fun hcon => hnn ⟨hb', hcon⟩
    rcases hu : b.unbind flags w with ⟨b1, w1, e1, tr⟩
    cases e1 with
    | some er =>
      have hcon : b.bind flags scope w = ⟨b1, w1, some er, tr⟩ := by
        simp [Ref.bind, hb', hs, hu]
      rw [hcon] at hok
      cases hok
    | none =>
      have hbind : b.bind flags scope w =
          ⟨(b1.bindCore flags scope w1).ref, (b1.bindCore flags scope w1).world,
            (b1.bindCore flags scope w1).err,
            tr ++ (b1.bindCore flags scope w1).trace⟩ := by
        simp [Ref.bind, hb', hs, hu]
      rw [hbind] at hok ⊢
      have hok' : (b1.bindCore flags scope w1).err = none := hok
      obtain ⟨w2, hwk, hcore⟩ := bindCore_ok_shape b1 flags scope w1 hok'
      have hshape := unbind_ok_shape b flags w hb' (by rw [hu])
      rw [hu] at hshape
      simp only [Outcome.mk.injEq] at hshape
      obtain ⟨hb1, hw1, -, -⟩ := hshape
      have hwk' : b.sourceExpression.assign flags (some scope) b.locator
          (some b.target) = b1.sourceExpression.assign flags (some scope)
            b1.locator (some b1.target) := by
        rw [hb1]
      obtain ⟨wmid, ha⟩ :=
        bindExprWork_ok_assign b1.sourceExpression flags scope b1.locator
          b1.target w1 w2 hwk
      rw [← hwk'] at ha
      have hev := hGS flags (some scope) (some b.target) wmid w2 ha
      show b.sourceExpression.evaluate flags (some scope) b.locator
        (b1.bindCore flags scope w1).world = .ok (some b.target)
      rw [hcore]
      exact hev

/-- Witness for C7's amended statement: a fresh bind over the assignable
location expression ends with the location holding the binding's target. -/
theorem ref_bind_assigns_target_witness :
    (¬((Ref.construct cellExpr 1 0).state &&& LifecycleState.isBound ≠ 0 ∧
      (Ref.construct cellExpr 1 0).scope = some 5)) ∧
    (((Ref.construct cellExpr 1 0).bind 0 5 ⟨some 9, 0⟩).err = none) ∧
    (cellExpr.evaluate 0 (some 5) 0
        (((Ref.construct cellExpr 1 0).bind 0 5 ⟨some 9, 0⟩).world)
      = .ok (some 1)) := by
  refine ⟨by decide, rfl, ?_⟩
  exact ref_bind_assigns_target (Ref.construct cellExpr 1 0) 0 5 ⟨some 9, 0⟩
    (by
      intro f sc v w0 w1 h
      injection h with h1 h2
      rw [← h1]
      rfl)
    (by decide) rfl

/-- C8: when the expression work of `$bind` (the bind hook or `assign`)
throws, the error propagates to the caller and the binding is left partially
initialized with no rollback: `$scope` already holds the new scope, and
`$state` has `isBinding` set but `isBound` clear.  First conjunct: the
not-yet-bound path; second conjunct: the re-bind path, where the inner
`$unbind` returned normally and the error arises in the core bind work. -/
theorem ref_bind_error_partial_state {W : Type} (b : Ref W) (flags : Flags)
    (scope : Scope) (w : W) (w1 : W) (er : Err) :
    ((b.state &&& LifecycleState.isBound = 0 →
      bindExprWork b.sourceExpression flags scope b.locator b.target w
        = (w1, some er) →
      b.bind flags scope w
        = ⟨b.duringBind scope, w1, some er, [(b.duringBind scope).state]⟩ ∧
      (b.duringBind scope).scope = some scope ∧
      (b.duringBind scope).state.testBit 0 = true ∧
      (b.duringBind scope).state.testBit 1 = false)) ∧
    ((b.state &&& LifecycleState.isBound ≠ 0 → b.scope ≠ some scope →
      (b.unbind flags w).err = none →
      bindExprWork b.sourceExpression flags scope b.locator b.target
        (b.unbind flags w).world = (w1, some er) →
      (b.bind flags scope w).err = some er ∧
      (b.bind flags scope w).world = w1 ∧
      (b.bind flags scope w).ref.scope = some scope ∧
      (b.bind flags scope w).ref.state.testBit 0 = true ∧
      (b.bind flags scope w).ref.state.testBit 1 = false)) := by
  constructor
  · intro hb hwk
    rw [bind_not_bound_eq_core b flags scope w hb,
      bindCore_err_shape b flags scope w w1 er hwk]
    refine ⟨rfl, rfl, testBit_zero_during_bind b.state, ?_⟩
    exact testBit_one_during_bind b.state ((and_isBound_eq_zero b.state).mp hb)
  · intro hb hs hu hwk
    rcases huo : b.unbind flags w with ⟨b1, wu, e1, tr⟩
    rw [huo] at hu hwk
    have he1 : e1 = none := hu
    subst he1
    have hshape := unbind_ok_shape b flags w hb (by rw [huo])
    rw [huo] at hshape
    simp only [Outcome.mk.injEq] at hshape
    obtain ⟨hb1, hw1, -, -⟩ := hshape
    have hbind : b.bind flags scope w =
        ⟨(b1.bindCore flags scope wu).ref, (b1.bindCore flags scope wu).world,
          (b1.bindCore flags scope wu).err,
          tr ++ (b1.bindCore flags scope wu).trace⟩ := by
      simp [Ref.bind, hb, hs, huo]
    have hwk' : bindExprWork b1.sourceExpression flags scope b1.locator
        b1.target wu = (w1, some er) := by
      rw [hb1]
      exact hwk
    have hcore := bindCore_err_shape b1 flags scope wu w1 er hwk'
    rw [hbind, hcore]
    refine ⟨rfl, rfl, rfl, testBit_zero_during_bind b1.state, ?_⟩
    have hone : b1.state.testBit 1 = false := by
      rw [hb1]
      exact testBit_one_unbound _
    exact testBit_one_during_bind b1.state hone

/-- Witness for C8 on the not-yet-bound path at a throwing expression. -/
theorem ref_bind_error_partial_state_witness :
    ((Ref.construct throwingExpr 1 0).state &&& LifecycleState.isBound = 0) ∧
    (bindExprWork throwingExpr 0 5 0 1 ⟨none, 0⟩ = (⟨none, 0⟩, some 7)) ∧
    ((Ref.construct throwingExpr 1 0).bind 0 5 ⟨none, 0⟩
        = ⟨(Ref.construct throwingExpr 1 0).duringBind 5, ⟨none, 0⟩, some 7,
            [((Ref.construct throwingExpr 1 0).duringBind 5).state]⟩ ∧
      ((Ref.construct throwingExpr 1 0).duringBind 5).scope = some 5 ∧
      ((Ref.construct throwingExpr 1 0).duringBind 5).state.testBit 0 = true ∧
      ((Ref.construct throwingExpr 1 0).duringBind 5).state.testBit 1 = false) :=
  ⟨by decide, rfl,
    (ref_bind_error_partial_state (Ref.construct throwingExpr 1 0) 0 5
      ⟨none, 0⟩ ⟨none, 0⟩ 7).1 (by decide) rfl⟩

end Aurelia
